import Mathlib

/-!
Shallow embedding of `crates/ide_assists/src/utils.rs` (rust-analyzer),
restricted to the trait-implementation synthesis engine: associated-item
selection, conflict detection, impl location, generic-header reconstruction,
body stubbing and insertion-point resolution.

Syntax-tree values are modelled by first-order records that keep exactly the
observations the source code makes of them (node texts, optional tokens,
optional semantic resolutions).  `Option` models Rust's `Option`; a dedicated
`PanicOr` type distinguishes a `panic!`/`unwrap` failure from an ordinary
absence value, since the spec claims hinge on that distinction.
-/

/-- Result of running a piece of Rust code that may `panic!` (e.g. through
`Option::unwrap`): either the panic, or the value produced. -/
inductive PanicOr (α : Type) where
  | panic : PanicOr α
  | ok : α → PanicOr α
deriving DecidableEq

/-- An attribute node (`ast::Attr`).  `text` is the full node text such as
"#[cfg(unix)]"; `as_simple_call` is the result of
`attr.as_simple_call()`: the path name and the token-tree argument when the
attribute has the shape `#[name(arg)]`. -/
structure Attr where
  text : String
  as_simple_call : Option (String × String)
deriving DecidableEq

/-- `ast::LifetimeParam`: `text` is the whole node's text (used verbatim by
the header clause); `lifetime` is `lifetime_param.lifetime()`'s token text
(used by the usage clause), absent on malformed trees. -/
structure LifetimeParam where
  text : String
  lifetime : Option String
deriving DecidableEq

/-- `ast::TypeParam`: optional name text, presence of the `:` token, and the
optional `TypeBoundList` node text.  Default arguments (`= T`) are never read
by the code and are not modelled. -/
structure TypeParam where
  name : Option String
  colon : Bool
  type_bound_list : Option String
deriving DecidableEq

/-- `ast::ConstParam`: whole node text (used verbatim) and optional name. -/
structure ConstParam where
  text : String
  name : Option String
deriving DecidableEq

/-- One entry of a `GenericParamList`, in source order.  The accessors
`lifetime_params`, `type_params` and `const_params` of the Rust AST filter
this list by kind, preserving source order. -/
inductive GenericParam where
  | lifetime : LifetimeParam → GenericParam
  | tyParam : TypeParam → GenericParam
  | constParam : ConstParam → GenericParam
deriving DecidableEq

/-- `ast::Fn` as observed by the engine: optional declared name, optional
body.  The body is kept as opaque text. -/
structure FnAst where
  name : Option String
  body : Option String
deriving DecidableEq

/-- `ast::TypeAlias` as observed: optional name, optional bound list. -/
structure TypeAliasAst where
  name : Option String
  type_bound_list : Option String
deriving DecidableEq

/-- `ast::Const` as observed: optional name. -/
structure ConstAst where
  name : Option String
deriving DecidableEq

/-- `ast::AssocItem`. -/
inductive AstAssocItem where
  | fn : FnAst → AstAssocItem
  | typeAlias : TypeAliasAst → AstAssocItem
  | constItem : ConstAst → AstAssocItem
  | macroCall : AstAssocItem
deriving DecidableEq

/-- `ast::AssocItemList`: the member items plus the brace-token observations
the insertion-point code makes.  `l_curly_end` is the end offset of the `{`
token when present.  `r_curly_prev_end` is `none` when the `}` token is
missing, `some none` when it exists but has no previous sibling or token, and
`some (some e)` when the token immediately preceding `}` ends at offset `e`. -/
structure AssocItemListSyn where
  assoc_items : List AstAssocItem
  l_curly_end : Option Nat
  r_curly_prev_end : Option (Option Nat)
deriving DecidableEq

/-- Semantic resolution of an impl block (`hir::Impl`): `self_ty_as_adt` is
`blk.self_ty(db).as_adt()` rendered as a numeric ADT identity;
`has_trait` is `blk.trait_(db).is_some()`. -/
structure ImplDef where
  self_ty_as_adt : Option Nat
  has_trait : Bool
deriving DecidableEq

/-- A syntactic impl block together with its optional semantic resolution
(`ctx.sema.to_def(&impl_blk)` may fail). -/
structure ImplSyn where
  sema : Option ImplDef
  assoc_item_list : Option AssocItemListSyn
deriving DecidableEq

/-- The enclosing node of the ADT; its descendant impl blocks are listed in
tree order, as produced by `module.descendants().filter_map(ast::Impl::cast)`. -/
structure ModuleSyn where
  impls : List ImplSyn
deriving DecidableEq

/-- `ast::Adt` together with the observations made of it: optional name,
optional generic-parameter clause, attributes, optional where-clause text,
the end offset of its text range, its optional parent node, and its optional
semantic resolution (`ctx.sema.to_def(adt)`) as a numeric ADT identity. -/
structure Adt where
  name : Option String
  generic_param_list : Option (List GenericParam)
  attrs : List Attr
  where_clause : Option String
  text_range_end : Nat
  parent : Option ModuleSyn
  sema : Option Nat
deriving DecidableEq

/-- `hir::AssocItem`: a semantic associated item whose source AST may be
unavailable (`item.source(db)` returns an `Option`). -/
inductive HirAssocItem where
  | function : Option FnAst → HirAssocItem
  | typeAlias : Option TypeAliasAst → HirAssocItem
  | constItem : Option ConstAst → HirAssocItem
deriving DecidableEq

/-- `DefaultMethods` (utils.rs lines 86-90). -/
inductive DefaultMethods where
  | only : DefaultMethods
  | no : DefaultMethods
deriving DecidableEq, BEq

/-- `has_def_name` (utils.rs lines 97-105). -/
def has_def_name : AstAssocItem → Bool
  | AstAssocItem.fn f => f.name.isSome
  | AstAssocItem.typeAlias t => t.name.isSome
  | AstAssocItem.constItem c => c.name.isSome
  | AstAssocItem.macroCall => false

/-- The source lookup of `filter_assoc_items` (utils.rs lines 110-117):
`i.source(db)?.value`, wrapped in the corresponding `ast::AssocItem`
constructor; items with no source are dropped. -/
def assoc_item_source : HirAssocItem → Option AstAssocItem
  | HirAssocItem.function s => s.map AstAssocItem.fn
  | HirAssocItem.typeAlias s => s.map AstAssocItem.typeAlias
  | HirAssocItem.constItem s => s.map AstAssocItem.constItem

/-- The mode filter of `filter_assoc_items` (utils.rs lines 119-125):
a `Fn` is kept when `(mode, body)` matches `(Only, Some _)` or `(No, None)`;
every other item kind is kept exactly when the mode is `No`. -/
def default_mode_keeps (mode : DefaultMethods) : AstAssocItem → Bool
  | AstAssocItem.fn f =>
      match mode, f.body with
      | DefaultMethods.only, some _ => true
      | DefaultMethods.no, none => true
      | _, _ => false
  | _ => mode == DefaultMethods.no

/-- `filter_assoc_items` (utils.rs lines 92-127). -/
def filter_assoc_items (items : List HirAssocItem) (mode : DefaultMethods) :
    List AstAssocItem :=
  ((items.filterMap assoc_item_source).filter has_def_name).filter
    (default_mode_keeps mode)

/-- Rust's `str::eq_ignore_ascii_case`, modelled per character: ASCII
uppercase letters are lowered, every other character compares exactly.
(Byte-level and character-level comparison agree because ASCII-lowering
never touches bytes of multi-byte UTF-8 sequences.) -/
def to_ascii_lowercase (c : Char) : Char :=
  if 'A' ≤ c ∧ c ≤ 'Z' then Char.ofNat (c.toNat + 32) else c

/-- String comparison up to ASCII case. -/
def eq_ignore_ascii_case (a b : String) : Bool :=
  a.data.map to_ascii_lowercase == b.data.map to_ascii_lowercase

/-- `has_fn` (utils.rs lines 376-390): true when some `Fn` member of the
impl's item list has a declared name equal, ASCII-case-insensitively, to
`rhs_name`. -/
def has_fn (imp : ImplSyn) (rhs_name : String) : Bool :=
  match imp.assoc_item_list with
  | none => false
  | some il =>
      il.assoc_items.any fun item =>
        match item with
        | AstAssocItem.fn f =>
            match f.name with
            | some nm => eq_ignore_ascii_case nm rhs_name
            | none => false
        | _ => false

/-- The matching test applied to each descendant impl by `find_struct_impl`
(utils.rs lines 347-365): the impl must resolve semantically, its self type
must resolve to the target ADT, and it must not be a trait impl. -/
def impl_matches (struct_def : Nat) (ib : ImplSyn) : Bool :=
  match ib.sema with
  | none => false
  | some d =>
      (match d.self_ty_as_adt with
       | some a => a == struct_def
       | none => false)
      && !d.has_trait

/-- `find_struct_impl` (utils.rs lines 337-374).  Outer `none` is returned
when the ADT has no parent node, when the ADT fails semantic resolution, or
when the first matching impl already has a colliding function; `some none`
when no impl matches; `some (some ib)` when the first matching impl `ib` has
no collision. -/
def find_struct_impl (adt : Adt) (name : String) : Option (Option ImplSyn) :=
  match adt.parent with
  | none => none
  | some module =>
      match adt.sema with
      | none => none
      | some struct_def =>
          match module.impls.find? (impl_matches struct_def) with
          | some ib => if has_fn ib name then none else some (some ib)
          | none => some none

/-- `find_impl_block_start` (utils.rs lines 395-399).  Returns the computed
offset together with the mutated buffer: a newline is pushed onto `buf`
before the brace lookup, also when that lookup fails. -/
def find_impl_block_start (impl_def : ImplSyn) (buf : String) :
    Option Nat × String :=
  (impl_def.assoc_item_list.bind AssocItemListSyn.l_curly_end, buf ++ "\n")

/-- `find_impl_block_end` (utils.rs lines 404-413).  Returns the end offset
of the token immediately preceding the item list's `}`, together with the
mutated buffer: a newline is pushed onto `buf` first, also on failure. -/
def find_impl_block_end (impl_def : ImplSyn) (buf : String) :
    Option Nat × String :=
  ((impl_def.assoc_item_list.bind AssocItemListSyn.r_curly_prev_end).bind id,
    buf ++ "\n")

/-- Kind filter `generic_params.lifetime_params()`. -/
def lifetime_params (gps : List GenericParam) : List LifetimeParam :=
  gps.filterMap fun p =>
    match p with
    | GenericParam.lifetime l => some l
    | _ => none

/-- Kind filter `generic_params.type_params()`. -/
def type_params (gps : List GenericParam) : List TypeParam :=
  gps.filterMap fun p =>
    match p with
    | GenericParam.tyParam t => some t
    | _ => none

/-- Kind filter `generic_params.const_params()`. -/
def const_params (gps : List GenericParam) : List ConstParam :=
  gps.filterMap fun p =>
    match p with
    | GenericParam.constParam c => some c
    | _ => none

/-- Rendering of one type parameter in the generated header (utils.rs lines
437-449): name text, then the `:` token followed by one space, then the
bound-list text, each part omitted when absent. -/
def render_type_param (tp : TypeParam) : String :=
  (tp.name.getD "") ++ (if tp.colon then ": " else "")
    ++ (tp.type_bound_list.getD "")

/-- The pieces joined into the header's angle-bracket clause (utils.rs lines
436-451): lifetime params verbatim, then rendered type params, then const
params verbatim. -/
def header_generics_list (gps : List GenericParam) : List String :=
  (lifetime_params gps).map LifetimeParam.text
    ++ (type_params gps).map render_type_param
    ++ (const_params gps).map ConstParam.text

/-- The header's angle-bracket clause (utils.rs lines 435-453), empty when
the declaration has no generic-parameter clause. -/
def header_generics_clause : Option (List GenericParam) → String
  | none => ""
  | some gps => "<" ++ String.intercalate ", " (header_generics_list gps) ++ ">"

/-- The pieces joined into the usage clause appended after the type name
(utils.rs lines 461-472): lifetime tokens, type-parameter names and
const-parameter names, nameless parameters dropped. -/
def usage_generics_list (gps : List GenericParam) : List String :=
  (lifetime_params gps).filterMap LifetimeParam.lifetime
    ++ (type_params gps).filterMap TypeParam.name
    ++ (const_params gps).filterMap ConstParam.name

/-- The usage-form angle-bracket clause (utils.rs lines 460-474). -/
def usage_generics_clause : Option (List GenericParam) → String
  | none => ""
  | some gps => "<" ++ String.intercalate ", " (usage_generics_list gps) ++ ">"

/-- The cfg-attribute filter of `generate_impl_text_inner` (utils.rs line
432): keep an attribute exactly when `as_simple_call` yields the name "cfg". -/
def is_cfg_attr (a : Attr) : Bool :=
  match a.as_simple_call with
  | some (nm, _) => nm == "cfg"
  | none => false

/-- The attribute text emitted before `impl` (utils.rs lines 431-433): each
kept attribute's text followed by a newline. -/
def cfg_attrs_text (attrs : List Attr) : String :=
  String.join ((attrs.filter is_cfg_attr).map (fun a => a.text ++ "\n"))

/-- The `trait for` fragment (utils.rs lines 455-458). -/
def trait_for_part : Option String → String
  | some t => t ++ " for "
  | none => ""

/-- The tail after the self-type reference (utils.rs lines 476-483): with a
where clause, a newline, the clause verbatim, a newline and the braced code;
without one, a single space and the braced code. -/
def impl_body_part : Option String → String → String
  | some wc, code => "\n" ++ wc ++ "\n\x7b\n" ++ code ++ "\n\x7d"
  | none, code => " \x7b\n" ++ code ++ "\n\x7d"

/-- `generate_impl_text_inner` (utils.rs lines 427-486).  The buffer is built
as: two newlines, the cfg attributes, `impl`, the header generics clause, a
space, the optional `<trait> for `, the ADT name (`adt.name().unwrap()` —
a panic when the ADT has no name), the usage generics clause, and the body
part.  -/
def generate_impl_text_inner (adt : Adt) (trait_text : Option String)
    (code : String) : PanicOr String :=
  match adt.name with
  | none => PanicOr.panic
  | some n =>
      PanicOr.ok
        ("\n\n" ++ cfg_attrs_text adt.attrs ++ "impl"
          ++ header_generics_clause adt.generic_param_list ++ " "
          ++ trait_for_part trait_text ++ n
          ++ usage_generics_clause adt.generic_param_list
          ++ impl_body_part adt.where_clause code)

/-- `generate_impl_text` (utils.rs lines 417-419). -/
def generate_impl_text (adt : Adt) (code : String) : PanicOr String :=
  generate_impl_text_inner adt none code

/-- `generate_trait_impl_text` (utils.rs lines 423-425). -/
def generate_trait_impl_text (adt : Adt) (trait_text : String) (code : String) :
    PanicOr String :=
  generate_impl_text_inner adt (some trait_text) code

/-- `add_method_to_adt` (utils.rs lines 488-508).  Returns the insertion
offset and inserted text handed to `builder.insert`, or the panic raised by
`generate_impl_text` on a nameless ADT.  The buffer starts as a newline (when
an impl is supplied) followed by the method text; `find_impl_block_end`
appends a further newline to it even when the brace lookup fails, in which
case the polluted buffer is wrapped by `generate_impl_text`. -/
def add_method_to_adt (adt : Adt) (impl_def : Option ImplSyn)
    (method : String) : PanicOr (Nat × String) :=
  match impl_def with
  | some idef =>
      match find_impl_block_end idef ("\n" ++ method) with
      | (some off, buf2) => PanicOr.ok (off, buf2)
      | (none, buf2) =>
          match generate_impl_text adt buf2 with
          | PanicOr.panic => PanicOr.panic
          | PanicOr.ok t => PanicOr.ok (adt.text_range_end, t)
  | none =>
      match generate_impl_text adt method with
      | PanicOr.panic => PanicOr.panic
      | PanicOr.ok t => PanicOr.ok (adt.text_range_end, t)

/-- The placeholder body synthesized for bodiless functions (utils.rs lines
155-156): a block whose single expression is `make::ext::expr_todo()`, the
unimplemented marker.  The body is modelled by its expression text. -/
def placeholder_body : String := "todo!()"

/-- The per-item pre-pass of `add_trait_assoc_items_to_impl` (utils.rs lines
140-145): clone for update, apply the `PathTransform`, and strip attributes
and doc comments.  The transform rewrites path references inside the item; it
is modelled as an opaque rewriting `σ` of the stored opaque texts, which
preserves the item's structure (the real transform only replaces path
segments and cannot add or remove a body). -/
def apply_path_transform (σ : String → String) :
    AstAssocItem → AstAssocItem
  | AstAssocItem.fn f => AstAssocItem.fn ⟨f.name, f.body.map σ⟩
  | AstAssocItem.typeAlias t =>
      AstAssocItem.typeAlias ⟨t.name, t.type_bound_list.map σ⟩
  | AstAssocItem.constItem c => AstAssocItem.constItem c
  | AstAssocItem.macroCall => AstAssocItem.macroCall

/-- The per-item loop body of `add_trait_assoc_items_to_impl` (utils.rs lines
153-165): a `Fn` without a body receives the placeholder body; a `TypeAlias`
has its bound list removed; everything else is left unchanged. -/
def stub_assoc_item : AstAssocItem → AstAssocItem
  | AstAssocItem.fn f =>
      match f.body with
      | none => AstAssocItem.fn ⟨f.name, some placeholder_body⟩
      | some b => AstAssocItem.fn ⟨f.name, some b⟩
  | AstAssocItem.typeAlias t => AstAssocItem.typeAlias ⟨t.name, none⟩
  | x => x

/-- A freshly created, empty associated-item list
(`get_or_create_assoc_item_list` creates one when the impl has none). -/
def empty_assoc_item_list : AssocItemListSyn := ⟨[], none, none⟩

/-- `res.get_or_create_assoc_item_list()` (utils.rs line 149). -/
def get_or_create_assoc_item_list (i : ImplSyn) : AssocItemListSyn :=
  i.assoc_item_list.getD empty_assoc_item_list

/-- `add_trait_assoc_items_to_impl` (utils.rs lines 129-171).  Each item is
transformed, stripped and stubbed, then appended to the impl's item list in
order.  `first_item` is the first processed item (the AST clone taken before
stubbing shares the mutable tree with the stubbed node, so the anchor
reflects the stub); `first_item.unwrap()` at line 170 panics when `items` is
empty. -/
def add_trait_assoc_items_to_impl (σ : String → String)
    (items : List AstAssocItem) (impl_ : ImplSyn) :
    PanicOr (ImplSyn × AstAssocItem) :=
  let processed := items.map (fun it => stub_assoc_item (apply_path_transform σ it))
  match processed with
  | [] => PanicOr.panic
  | a :: _ =>
      let il := get_or_create_assoc_item_list impl_
      PanicOr.ok
        ({ impl_ with
            assoc_item_list := some { il with assoc_items := il.assoc_items ++ processed } },
          a)

/-- The member list of an impl, empty when the impl has no item list. -/
def impl_members (imp : ImplSyn) : List AstAssocItem :=
  match imp.assoc_item_list with
  | none => []
  | some il => il.assoc_items

/-- Kind key of a generic parameter: lifetimes 0, type parameters 1, const
parameters 2. -/
def param_kind_key : GenericParam → Nat
  | GenericParam.lifetime _ => 0
  | GenericParam.tyParam _ => 1
  | GenericParam.constParam _ => 2

/-- A generic-parameter list is kind-sorted when every lifetime precedes
every type parameter and every type parameter precedes every const
parameter. -/
def kind_sorted (gps : List GenericParam) : Prop :=
  gps.Pairwise fun a b => param_kind_key a ≤ param_kind_key b

/-- Spec-side rendering of one generic parameter by its own kind's header
rule. -/
def render_generic_param : GenericParam → String
  | GenericParam.lifetime l => l.text
  | GenericParam.tyParam t => render_type_param t
  | GenericParam.constParam c => c.text

/-- Spec-side name of a generic parameter as used in the usage clause. -/
def decl_name : GenericParam → Option String
  | GenericParam.lifetime l => l.lifetime
  | GenericParam.tyParam t => t.name
  | GenericParam.constParam c => c.name

/-- Spec-side selection rule of `filter_assoc_items`, written from the spec's
words: an item lacking a declared name is dropped; a function is kept iff the
mode is Only-defaulted and it has a body, or the mode is No-defaults and it
has no body; a type alias or const is kept iff the mode is No-defaults. -/
def spec_selected (mode : DefaultMethods) (a : AstAssocItem) : Bool :=
  match a with
  | AstAssocItem.fn f =>
      f.name.isSome
        && ((mode == DefaultMethods.only && f.body.isSome)
            || (mode == DefaultMethods.no && f.body.isNone))
  | AstAssocItem.typeAlias t => t.name.isSome && mode == DefaultMethods.no
  | AstAssocItem.constItem c => c.name.isSome && mode == DefaultMethods.no
  | AstAssocItem.macroCall => false

/-- Spec-side description of `filter_assoc_items`: source lookup, then the
one-pass selection rule. -/
def spec_filter_assoc_items (items : List HirAssocItem)
    (mode : DefaultMethods) : List AstAssocItem :=
  (items.filterMap assoc_item_source).filter (spec_selected mode)

/-- The generic clause of the spec's header round-trip example,
`<'a, T: Clone, const N: usize>`. -/
def gpsC1 : List GenericParam :=
  [GenericParam.lifetime ⟨"\x27a", some "\x27a"⟩,
   GenericParam.tyParam ⟨some "T", true, some "Clone"⟩,
   GenericParam.constParam ⟨"const N: usize", some "N"⟩]

/-- An ADT declared as `struct Foo<'a, T: Clone, const N: usize>`. -/
def adtC1 : Adt := ⟨some "Foo", some gpsC1, [], none, 0, none, none⟩

/-- A kind-interleaved generic clause, `<const N: usize, T>` (legal Rust). -/
def gpsC7 : List GenericParam :=
  [GenericParam.constParam ⟨"const N: usize", some "N"⟩,
   GenericParam.tyParam ⟨some "T", false, none⟩]

/-- A module node with no impl blocks. -/
def mod_empty : ModuleSyn := ⟨[]⟩

/-- An ADT with an enclosing node but failing semantic resolution. -/
def adt_unresolved : Adt := ⟨some "S", none, [], none, 0, some mod_empty, none⟩

/-- An ADT node with no name (error-recovery tree). -/
def adt_nameless : Adt := ⟨none, none, [], none, 0, none, none⟩

/-- A well-formed associated-item list whose closing brace is preceded by a
token ending at offset 7. -/
def il4 : AssocItemListSyn := ⟨[], some 1, some (some 7)⟩

/-- An impl block with the item list `il4`. -/
def imp4 : ImplSyn := ⟨none, some il4⟩

/-- A plain named ADT used by the insertion-point examples. -/
def adt4 : Adt := ⟨some "S", none, [], none, 3, none, none⟩

/-- The ADT of the spec's cfg-propagation example: attributes
`#[cfg(unix)]` and `#[derive(Debug)]`. -/
def adt8 : Adt :=
  ⟨some "Foo", none,
   [⟨"#[cfg(unix)]", some ("cfg", "unix")⟩,
    ⟨"#[derive(Debug)]", some ("derive", "Debug")⟩],
   none, 0, none, none⟩

/-- A single required (bodiless) trait function named `foo`. -/
def items5 : List AstAssocItem := [AstAssocItem.fn ⟨some "foo", none⟩]

/-- An impl block with no item list yet. -/
def impl5 : ImplSyn := ⟨none, none⟩

/-- The impl produced by adding the stubbed `foo` to `impl5`. -/
def res5 : ImplSyn :=
  ⟨none, some ⟨[AstAssocItem.fn ⟨some "foo", some placeholder_body⟩], none, none⟩⟩

/-- The anchor item produced for `items5`: `foo` with the placeholder body. -/
def anchor5 : AstAssocItem := AstAssocItem.fn ⟨some "foo", some placeholder_body⟩

/-- A module containing one unresolved impl, used by the locator witness. -/
def modW : ModuleSyn := ⟨[⟨none, none⟩]⟩

/-- A resolvable ADT inside `modW`. -/
def adtW : Adt := ⟨some "S", none, [], none, 0, some modW, some 0⟩

/-! ### Shared helper lemmas -/

/-- Unfolding of `generate_impl_text_inner` on a named ADT. -/
theorem generate_impl_text_inner_ok (adt : Adt) (n : String)
    (tt : Option String) (code : String) (h : adt.name = some n) :
    generate_impl_text_inner adt tt code =
      PanicOr.ok
        ("\n\n" ++ cfg_attrs_text adt.attrs ++ "impl"
          ++ header_generics_clause adt.generic_param_list ++ " "
          ++ trait_for_part tt ++ n
          ++ usage_generics_clause adt.generic_param_list
          ++ impl_body_part adt.where_clause code) := by
  cases adt with
  | mk nm gpl attrs wc tre par sem =>
    cases nm with
    | none => exact Option.noConfusion h
    | some m =>
      obtain rfl := Option.some.inj h
      rfl

/-- Unfolding lemmas for the kind filters. -/
theorem lifetime_params_cons_lt (l : LifetimeParam) (rest : List GenericParam) :
    lifetime_params (GenericParam.lifetime l :: rest) = l :: lifetime_params rest := rfl

theorem lifetime_params_cons_ty (t : TypeParam) (rest : List GenericParam) :
    lifetime_params (GenericParam.tyParam t :: rest) = lifetime_params rest := rfl

theorem lifetime_params_cons_c (c : ConstParam) (rest : List GenericParam) :
    lifetime_params (GenericParam.constParam c :: rest) = lifetime_params rest := rfl

theorem type_params_cons_lt (l : LifetimeParam) (rest : List GenericParam) :
    type_params (GenericParam.lifetime l :: rest) = type_params rest := rfl

theorem type_params_cons_ty (t : TypeParam) (rest : List GenericParam) :
    type_params (GenericParam.tyParam t :: rest) = t :: type_params rest := rfl

theorem type_params_cons_c (c : ConstParam) (rest : List GenericParam) :
    type_params (GenericParam.constParam c :: rest) = type_params rest := rfl

theorem const_params_cons_lt (l : LifetimeParam) (rest : List GenericParam) :
    const_params (GenericParam.lifetime l :: rest) = const_params rest := rfl

theorem const_params_cons_ty (t : TypeParam) (rest : List GenericParam) :
    const_params (GenericParam.tyParam t :: rest) = const_params rest := rfl

theorem const_params_cons_c (c : ConstParam) (rest : List GenericParam) :
    const_params (GenericParam.constParam c :: rest) = c :: const_params rest := rfl

/-- A tail whose kind keys are all at least 1 holds no lifetime parameters. -/
theorem lifetime_params_nil_of_ge (rest : List GenericParam)
    (hge : ∀ q ∈ rest, 1 ≤ param_kind_key q) : lifetime_params rest = [] := by
  rw [lifetime_params, List.filterMap_eq_nil_iff]
  intro q hq
  cases q with
  | lifetime l => exact absurd (hge _ hq) (by simp [param_kind_key])
  | tyParam t => rfl
  | constParam c => rfl

/-- A tail whose kind keys are all at least 2 holds no type parameters. -/
theorem type_params_nil_of_ge (rest : List GenericParam)
    (hge : ∀ q ∈ rest, 2 ≤ param_kind_key q) : type_params rest = [] := by
  rw [type_params, List.filterMap_eq_nil_iff]
  intro q hq
  cases q with
  | lifetime l => rfl
  | tyParam t => exact absurd (hge _ hq) (by simp [param_kind_key])
  | constParam c => rfl

/-- C7 (amended): within each parameter kind the generated header and usage
clauses keep declaration order, and when the declaration lists all lifetime
parameters before all type parameters before all const parameters (the
kind-sorted case), the emitted parameter order equals the declaration order
exactly. -/
theorem generics_order_mirrors_declaration :
    ∀ gps : List GenericParam, kind_sorted gps →
      header_generics_list gps = gps.map render_generic_param
      ∧ usage_generics_list gps = gps.filterMap decl_name := by
  intro gps
  induction gps with
  | nil => intro _; exact ⟨rfl, rfl⟩
  | cons p rest ih =>
    intro h
    rw [kind_sorted, List.pairwise_cons] at h
    obtain ⟨hall, hrest⟩ := h
    obtain ⟨ih1, ih2⟩ := ih hrest
    cases p with
    | lifetime l =>
      constructor
      · simp only [header_generics_list, lifetime_params_cons_lt,
          type_params_cons_lt, const_params_cons_lt, List.map_cons,
          List.cons_append, render_generic_param]
        rw [show (lifetime_params rest).map LifetimeParam.text
              ++ (type_params rest).map render_type_param
              ++ (const_params rest).map ConstParam.text
            = header_generics_list rest from rfl, ih1]
      · simp only [usage_generics_list, lifetime_params_cons_lt,
          type_params_cons_lt, const_params_cons_lt, List.filterMap_cons,
          decl_name]
        cases hl : l.lifetime with
        | none =>
          simpa only [usage_generics_list] using ih2
        | some s =>
          simp only [List.cons_append]
          rw [show (lifetime_params rest).filterMap LifetimeParam.lifetime
                ++ (type_params rest).filterMap TypeParam.name
                ++ (const_params rest).filterMap ConstParam.name
              = usage_generics_list rest from rfl, ih2]
    | tyParam t =>
      have h1 : ∀ q ∈ rest, 1 ≤ param_kind_key q := fun q hq => hall q hq
      have hlt := lifetime_params_nil_of_ge rest h1
      constructor
      · simp only [header_generics_list, lifetime_params_cons_ty,
          type_params_cons_ty, const_params_cons_ty, hlt, List.map_nil,
          List.nil_append, List.map_cons, List.cons_append,
          render_generic_param]
        simp only [header_generics_list, hlt, List.map_nil,
          List.nil_append] at ih1
        rw [ih1]
      · simp only [usage_generics_list, lifetime_params_cons_ty,
          type_params_cons_ty, const_params_cons_ty, hlt,
          List.filterMap_nil, List.nil_append, List.filterMap_cons,
          decl_name]
        simp only [usage_generics_list, hlt, List.filterMap_nil,
          List.nil_append] at ih2
        cases hn : t.name with
        | none => simpa using ih2
        | some s =>
          simp only [List.cons_append]
          rw [ih2]
    | constParam c =>
      have h2 : ∀ q ∈ rest, 2 ≤ param_kind_key q := fun q hq => hall q hq
      have h1 : ∀ q ∈ rest, 1 ≤ param_kind_key q := fun q hq =>
        le_trans (by norm_num) (h2 q hq)
      have hlt := lifetime_params_nil_of_ge rest h1
      have hty := type_params_nil_of_ge rest h2
      constructor
      · simp only [header_generics_list, lifetime_params_cons_c,
          type_params_cons_c, const_params_cons_c, hlt, hty, List.map_nil,
          List.nil_append, List.map_cons, List.cons_append,
          render_generic_param]
        simp only [header_generics_list, hlt, hty, List.map_nil,
          List.nil_append] at ih1
        rw [ih1]
      · simp only [usage_generics_list, lifetime_params_cons_c,
          type_params_cons_c, const_params_cons_c, hlt, hty,
          List.filterMap_nil, List.nil_append, List.filterMap_cons,
          decl_name]
        simp only [usage_generics_list, hlt, hty, List.filterMap_nil,
          List.nil_append] at ih2
        cases hn : c.name with
        | none => simpa using ih2
        | some s =>
          simp only [List.cons_append]
          rw [ih2]

/-- C7 counterexample: for the legal declaration order
`<const N: usize, T>` the usage clause is `<T, N>`, not the declaration
order `<N, T>`; the code regroups const parameters after type parameters. -/
theorem generics_order_counterexample :
    usage_generics_clause (some gpsC7) = "<T, N>"
    ∧ "<" ++ String.intercalate ", " (gpsC7.filterMap decl_name) ++ ">" = "<N, T>"
    ∧ usage_generics_clause (some gpsC7)
        ≠ "<" ++ String.intercalate ", " (gpsC7.filterMap decl_name) ++ ">" := by
  refine ⟨by decide, by decide, by decide⟩

/-- C7 witness: the kind-sorted declaration `<'a, T: Clone, const N: usize>`
satisfies the amended ordering statement. -/
theorem generics_order_witness :
    header_generics_list gpsC1 = gpsC1.map render_generic_param
    ∧ usage_generics_list gpsC1 = gpsC1.filterMap decl_name :=
  generics_order_mirrors_declaration gpsC1
    (show List.Pairwise (fun a b => param_kind_key a ≤ param_kind_key b) gpsC1
      by decide)

/-- C1 (amended): for the declaration `<'a, T: Clone, const N: usize>` the
generated header's angle-bracket clause is exactly
`<'a, T: Clone, const N: usize>` (lifetime verbatim, type parameter as name,
colon, one space, bounds, const verbatim, joined by comma-space; no space
before the comma) and the usage clause is exactly `<'a, T, N>`. -/
theorem header_round_trip :
    header_generics_clause (some gpsC1) = "<\x27a, T: Clone, const N: usize>"
    ∧ usage_generics_clause (some gpsC1) = "<\x27a, T, N>"
    ∧ ∀ (adt : Adt) (n : String) (tt : Option String) (code : String),
        adt.name = some n → adt.generic_param_list = some gpsC1 →
        generate_impl_text_inner adt tt code = PanicOr.ok
          ("\n\n" ++ cfg_attrs_text adt.attrs ++ "impl"
            ++ "<\x27a, T: Clone, const N: usize>" ++ " "
            ++ trait_for_part tt ++ n ++ "<\x27a, T, N>"
            ++ impl_body_part adt.where_clause code) := by
  have h1 : header_generics_clause (some gpsC1)
      = "<\x27a, T: Clone, const N: usize>" := by decide
  have h2 : usage_generics_clause (some gpsC1) = "<\x27a, T, N>" := by decide
  refine ⟨h1, h2, ?_⟩
  intro adt n tt code hn hg
  rw [generate_impl_text_inner_ok adt n tt code hn, hg, h1, h2]

/-- C1 counterexample: on `struct Foo<'a, T: Clone, const N: usize>` the
generated text reads `impl<'a, T: Clone, const N: usize>`, not the claimed
`impl<'a, T: Clone , const N: usize>` with a space before the comma. -/
theorem header_round_trip_counterexample :
    generate_impl_text_inner adtC1 none "x" = PanicOr.ok
      "\n\nimpl<\x27a, T: Clone, const N: usize> Foo<\x27a, T, N> \x7b\nx\n\x7d"
    ∧ generate_impl_text_inner adtC1 none "x" ≠ PanicOr.ok
      "\n\nimpl<\x27a, T: Clone , const N: usize> Foo<\x27a, T, N> \x7b\nx\n\x7d" := by
  exact ⟨by decide, by decide⟩

/-- C1 witness: the amended round trip at the concrete ADT `adtC1`. -/
theorem header_round_trip_witness :
    generate_impl_text_inner adtC1 none "x" = PanicOr.ok
      ("\n\n" ++ cfg_attrs_text adtC1.attrs ++ "impl"
        ++ "<\x27a, T: Clone, const N: usize>" ++ " "
        ++ trait_for_part none ++ "Foo" ++ "<\x27a, T, N>"
        ++ impl_body_part adtC1.where_clause "x") :=
  header_round_trip.2.2 adtC1 "Foo" none "x" rfl rfl

/-- C3 (confirmed): `filter_assoc_items` returns, in declaration order,
exactly the source-backed items that have a declared name and satisfy the
mode rule: a function is kept iff (Only-defaulted and it has a body) or
(No-defaults and it has no body); a type alias or const is kept iff the mode
is No-defaults; nameless items are dropped. -/
theorem filter_assoc_items_spec (items : List HirAssocItem)
    (mode : DefaultMethods) :
    filter_assoc_items items mode = spec_filter_assoc_items items mode := by
  unfold filter_assoc_items spec_filter_assoc_items
  rw [List.filter_filter]
  apply List.filter_congr
  intro a _
  cases a with
  | fn f =>
    obtain ⟨n, b⟩ := f
    cases mode <;> cases n <;> cases b <;> rfl
  | typeAlias t =>
    obtain ⟨n, bl⟩ := t
    cases mode <;> cases n <;> rfl
  | constItem c =>
    obtain ⟨n⟩ := c
    cases mode <;> cases n <;> rfl
  | macroCall => cases mode <;> rfl

/-- C6 (confirmed): `has_fn` is true exactly when some `Fn` member of the
impl's member list has a declared name that compares equal to the candidate
ASCII-case-insensitively; non-function members and nameless functions never
trigger it. -/
theorem has_fn_iff (imp : ImplSyn) (nm : String) :
    has_fn imp nm = true ↔
      ∃ f : FnAst, AstAssocItem.fn f ∈ impl_members imp
        ∧ ∃ s, f.name = some s ∧ eq_ignore_ascii_case s nm = true := by
  cases imp with
  | mk sema ail =>
    cases ail with
    | none => simp [has_fn, impl_members]
    | some il =>
      simp only [has_fn, impl_members, List.any_eq_true]
      constructor
      · rintro ⟨x, hx, hpx⟩
        cases x with
        | fn f =>
          have hpx2 : (match f.name with
              | some nm2 => eq_ignore_ascii_case nm2 nm
              | none => false) = true := hpx
          cases hf : f.name with
          | none =>
            rw [hf] at hpx2
            exact absurd hpx2 (by simp)
          | some s =>
            rw [hf] at hpx2
            exact ⟨f, hx, s, hf, hpx2⟩
        | typeAlias t => exact absurd (show false = true from hpx) (by simp)
        | constItem c => exact absurd (show false = true from hpx) (by simp)
        | macroCall => exact absurd (show false = true from hpx) (by simp)
      · rintro ⟨f, hf, s, hs, he⟩
        refine ⟨AstAssocItem.fn f, hf, ?_⟩
        show (match f.name with
            | some nm2 => eq_ignore_ascii_case nm2 nm
            | none => false) = true
        rw [hs]
        exact he

/-- C10 (confirmed): `add_trait_assoc_items_to_impl` panics exactly on an
empty candidate list; on a non-empty list it succeeds and its anchor item is
the processed first candidate. -/
theorem add_trait_assoc_items_nonempty (σ : String → String)
    (impl_ : ImplSyn) :
    (∀ items, add_trait_assoc_items_to_impl σ items impl_ = PanicOr.panic
        ↔ items = [])
    ∧ ∀ a as, ∃ res, add_trait_assoc_items_to_impl σ (a :: as) impl_ =
        PanicOr.ok (res, stub_assoc_item (apply_path_transform σ a)) := by
  constructor
  · intro items
    cases items with
    | nil => simp [add_trait_assoc_items_to_impl]
    | cons a as => simp [add_trait_assoc_items_to_impl]
  · intro a as
    exact ⟨_, rfl⟩

/-- C5 (confirmed): every emitted function candidate carries exactly one
body: the path-transformed original when the source had one, the synthesized
placeholder when it had none; and the emitted member list is the input
candidates, processed this way, appended in order. -/
theorem assoc_items_body_completeness (σ : String → String)
    (items : List AstAssocItem) (impl_ : ImplSyn) (f : FnAst) :
    (stub_assoc_item (apply_path_transform σ (AstAssocItem.fn f)) =
       AstAssocItem.fn ⟨f.name,
         some (match f.body with
               | none => placeholder_body
               | some b => σ b)⟩)
    ∧ ∀ res anchor,
        add_trait_assoc_items_to_impl σ items impl_ = PanicOr.ok (res, anchor) →
        ∃ il, res.assoc_item_list = some il ∧
          il.assoc_items = (get_or_create_assoc_item_list impl_).assoc_items
            ++ items.map (fun it => stub_assoc_item (apply_path_transform σ it)) := by
  constructor
  · cases hb : f.body <;>
      simp [apply_path_transform, stub_assoc_item, hb]
  · intro res anchor h
    cases items with
    | nil => simp [add_trait_assoc_items_to_impl] at h
    | cons a as =>
      unfold add_trait_assoc_items_to_impl at h
      simp only [List.map_cons] at h
      rw [PanicOr.ok.injEq, Prod.mk.injEq] at h
      obtain ⟨hres, -⟩ := h
      rw [← hres]
      exact ⟨_, rfl, by simp⟩

/-- C5 witness: one bodiless function `foo` added to an impl without an item
list yields exactly the placeholder-bodied `foo` as the new member list. -/
theorem assoc_items_body_completeness_witness :
    ∃ il, res5.assoc_item_list = some il ∧
      il.assoc_items = (get_or_create_assoc_item_list impl5).assoc_items
        ++ items5.map (fun it => stub_assoc_item (apply_path_transform id it)) :=
  (assoc_items_body_completeness id items5 impl5 ⟨some "foo", none⟩).2
    res5 anchor5 rfl

/-- C2 (amended): when the ADT has an enclosing node and resolves
semantically, `find_struct_impl` returns `none` exactly when the first
matching inherent impl already has a colliding function, `some (some ib)`
exactly when that first match `ib` has none, and `some none` exactly when no
impl matches; the first match determines the result and later duplicates are
ignored. -/
theorem find_struct_impl_amended (adt : Adt) (nm : String) (m : ModuleSyn)
    (d : Nat) (hp : adt.parent = some m) (hs : adt.sema = some d) :
    ((find_struct_impl adt nm = none ↔
        ∃ ib, m.impls.find? (impl_matches d) = some ib ∧ has_fn ib nm = true)
    ∧ (∀ ib, find_struct_impl adt nm = some (some ib) ↔
        (m.impls.find? (impl_matches d) = some ib ∧ has_fn ib nm = false))
    ∧ (find_struct_impl adt nm = some none ↔
        m.impls.find? (impl_matches d) = none)
    ∧ ∀ pre ib post, m.impls = pre ++ ib :: post →
        (∀ x ∈ pre, impl_matches d x = false) → impl_matches d ib = true →
        find_struct_impl adt nm =
          if has_fn ib nm then none else some (some ib)) := by
  have hfs : find_struct_impl adt nm =
      match m.impls.find? (impl_matches d) with
      | some ib => if has_fn ib nm then none else some (some ib)
      | none => some none := by
    unfold find_struct_impl
    rw [hp, hs]
  refine ⟨?_, ?_, ?_, ?_⟩
  · cases hfind : m.impls.find? (impl_matches d) with
    | none =>
      have h2 : find_struct_impl adt nm = some none := by rw [hfs, hfind]
      constructor
      · intro h
        rw [h2] at h
        exact Option.noConfusion h
      · rintro ⟨ib, hib, -⟩
        exact Option.noConfusion hib
    | some ib0 =>
      have h2 : find_struct_impl adt nm
          = if has_fn ib0 nm then none else some (some ib0) := by rw [hfs, hfind]
      cases hhf : has_fn ib0 nm with
      | true =>
        simp only [hhf, if_true] at h2
        exact ⟨fun _ => ⟨ib0, rfl, hhf⟩, fun _ => h2⟩
      | false =>
        simp only [hhf, Bool.false_eq_true, if_false] at h2
        constructor
        · intro h
          rw [h2] at h
          exact Option.noConfusion h
        · rintro ⟨ib, hib, hf2⟩
          obtain rfl := Option.some.inj hib
          rw [hhf] at hf2
          exact Bool.noConfusion hf2
  · intro ib
    cases hfind : m.impls.find? (impl_matches d) with
    | none =>
      have h2 : find_struct_impl adt nm = some none := by rw [hfs, hfind]
      constructor
      · intro h
        rw [h2] at h
        exact Option.noConfusion (Option.some.inj h)
      · rintro ⟨hib, -⟩
        exact Option.noConfusion hib
    | some ib0 =>
      have h2 : find_struct_impl adt nm
          = if has_fn ib0 nm then none else some (some ib0) := by rw [hfs, hfind]
      cases hhf : has_fn ib0 nm with
      | true =>
        simp only [hhf, if_true] at h2
        constructor
        · intro h
          rw [h2] at h
          exact Option.noConfusion h
        · rintro ⟨hib, hf2⟩
          obtain rfl := Option.some.inj hib
          rw [hhf] at hf2
          exact Bool.noConfusion hf2
      | false =>
        simp only [hhf, Bool.false_eq_true, if_false] at h2
        constructor
        · intro h
          rw [h2] at h
          obtain rfl := Option.some.inj (Option.some.inj h)
          exact ⟨rfl, hhf⟩
        · rintro ⟨hib, -⟩
          obtain rfl := Option.some.inj hib
          exact h2
  · cases hfind : m.impls.find? (impl_matches d) with
    | none =>
      have h2 : find_struct_impl adt nm = some none := by rw [hfs, hfind]
      exact ⟨fun _ => rfl, fun _ => h2⟩
    | some ib0 =>
      have h2 : find_struct_impl adt nm
          = if has_fn ib0 nm then none else some (some ib0) := by rw [hfs, hfind]
      cases hhf : has_fn ib0 nm with
      | true =>
        simp only [hhf, if_true] at h2
        constructor
        · intro h
          rw [h2] at h
          exact Option.noConfusion h
        · intro h
          exact Option.noConfusion h
      | false =>
        simp only [hhf, Bool.false_eq_true, if_false] at h2
        constructor
        · intro h
          rw [h2] at h
          exact Option.noConfusion (Option.some.inj h)
        · intro h
          exact Option.noConfusion h
  · intro pre ib post heq hpre hib
    have hfind : m.impls.find? (impl_matches d) = some ib := by
      rw [heq, List.find?_append]
      have h1 : pre.find? (impl_matches d) = none :=
        List.find?_eq_none.mpr (fun x hx => by simp [hpre x hx])
      rw [h1, List.find?_cons_of_pos _ hib]
      rfl
    rw [hfs, hfind]

/-- C2 counterexample: an ADT whose semantic resolution fails makes
`find_struct_impl` return the outer `none` (the Conflict outcome) although
its enclosing node contains no impl block at all, colliding or otherwise. -/
theorem find_struct_impl_counterexample :
    find_struct_impl adt_unresolved "new" = none
    ∧ adt_unresolved.parent = some mod_empty
    ∧ mod_empty.impls = [] := ⟨rfl, rfl, rfl⟩

/-- C2 witness: the three-way characterization applied to a concrete
resolvable ADT whose module holds one unresolvable impl block. -/
theorem find_struct_impl_amended_witness :
    find_struct_impl adtW "new" = some none ↔
      modW.impls.find? (impl_matches 0) = none :=
  (find_struct_impl_amended adtW "new" modW 0 rfl rfl).2.2.1

/-- C4 (amended): with a supplied impl whose item-list closing brace is
preceded by a token ending at `e`, the insertion is at offset `e` and the
inserted text is a newline, the member text, and a trailing newline (pushed
by `find_impl_block_end`); with no impl, the insertion is at the end of the
ADT's text range and the inserted text is the full generated impl block. -/
theorem add_method_insertion (adt : Adt) (idef : ImplSyn) (method : String)
    (il : AssocItemListSyn) (e : Nat) (t : String)
    (hil : idef.assoc_item_list = some il)
    (hrc : il.r_curly_prev_end = some (some e))
    (hgen : generate_impl_text adt method = PanicOr.ok t) :
    add_method_to_adt adt (some idef) method
        = PanicOr.ok (e, "\n" ++ method ++ "\n")
    ∧ add_method_to_adt adt none method
        = PanicOr.ok (adt.text_range_end, t) := by
  constructor
  · have hfe : find_impl_block_end idef ("\n" ++ method)
        = (some e, "\n" ++ method ++ "\n") := by
      simp [find_impl_block_end, hil, hrc]
    simp only [add_method_to_adt, hfe]
  · simp only [add_method_to_adt, hgen]

/-- C4 counterexample: extending an existing impl inserts
`"\nfn f()\n"` — with a trailing newline — not the claimed `"\nfn f()"`. -/
theorem add_method_insertion_counterexample :
    add_method_to_adt adt4 (some imp4) "fn f()" = PanicOr.ok (7, "\nfn f()\n")
    ∧ add_method_to_adt adt4 (some imp4) "fn f()" ≠ PanicOr.ok (7, "\nfn f()") := by
  exact ⟨by decide, by decide⟩

/-- C4 witness: the amended insertion rule at the concrete impl `imp4` and
ADT `adt4`. -/
theorem add_method_insertion_witness :
    add_method_to_adt adt4 (some imp4) "m" = PanicOr.ok (7, "\n" ++ "m" ++ "\n")
    ∧ add_method_to_adt adt4 none "m"
        = PanicOr.ok (adt4.text_range_end,
            "\n\nimpl S \x7b\nm\n\x7d") :=
  add_method_insertion adt4 imp4 "m" il4 7 "\n\nimpl S \x7b\nm\n\x7d" rfl rfl
    (by decide)

/-- Characterization of the cfg filter. -/
theorem is_cfg_attr_iff (a : Attr) :
    is_cfg_attr a = true ↔ ∃ arg, a.as_simple_call = some ("cfg", arg) := by
  cases a with
  | mk tx sc =>
    cases sc with
    | none => simp [is_cfg_attr]
    | some pr =>
      obtain ⟨nm2, arg⟩ := pr
      simp [is_cfg_attr]

/-- C8 (confirmed): the text emitted before `impl` is two newlines followed
by exactly the ADT's `cfg(...)` attributes, kept in original order (the
filtered list is a sublist of the attribute list), each followed by its own
newline; an attribute is kept precisely when its simple-call name is `cfg`. -/
theorem cfg_attrs_exact (adt : Adt) (n : String) (tt : Option String)
    (code : String) (h : adt.name = some n) :
    (generate_impl_text_inner adt tt code = PanicOr.ok
      ("\n\n" ++ cfg_attrs_text adt.attrs ++ "impl"
        ++ header_generics_clause adt.generic_param_list ++ " "
        ++ trait_for_part tt ++ n
        ++ usage_generics_clause adt.generic_param_list
        ++ impl_body_part adt.where_clause code))
    ∧ (∀ a, a ∈ adt.attrs.filter is_cfg_attr ↔
        (a ∈ adt.attrs ∧ ∃ arg, a.as_simple_call = some ("cfg", arg)))
    ∧ (adt.attrs.filter is_cfg_attr).Sublist adt.attrs
    ∧ cfg_attrs_text adt.attrs =
        String.join ((adt.attrs.filter is_cfg_attr).map (fun a => a.text ++ "\n")) := by
  refine ⟨generate_impl_text_inner_ok adt n tt code h, ?_,
    List.filter_sublist _, rfl⟩
  intro a
  rw [List.mem_filter, is_cfg_attr_iff]

/-- C8 witness: for an ADT carrying `#[cfg(unix)]` and `#[derive(Debug)]`,
only the cfg attribute is emitted, on its own line immediately before
`impl`. -/
theorem cfg_attrs_exact_witness :
    generate_impl_text_inner adt8 none "x" = PanicOr.ok
      ("\n\n" ++ cfg_attrs_text adt8.attrs ++ "impl"
        ++ header_generics_clause adt8.generic_param_list ++ " "
        ++ trait_for_part none ++ "Foo"
        ++ usage_generics_clause adt8.generic_param_list
        ++ impl_body_part adt8.where_clause "x")
    ∧ cfg_attrs_text adt8.attrs = "#[cfg(unix)]\n" :=
  ⟨(cfg_attrs_exact adt8 "Foo" none "x" rfl).1, by decide⟩

/-- C9 (amended): the insertion-point lookups return absence markers — and
never panic — exactly on missing structure, but `generate_impl_text_inner`
unwraps the ADT's name and panics precisely when the ADT has no name. -/
theorem absence_markers_and_name_unwrap :
    (∀ (adt : Adt) (tt : Option String) (code : String),
        generate_impl_text_inner adt tt code = PanicOr.panic ↔ adt.name = none)
    ∧ (∀ (impl_def : ImplSyn) (buf : String),
        (find_impl_block_end impl_def buf).1 = none ↔
          (impl_def.assoc_item_list = none
            ∨ ∃ il, impl_def.assoc_item_list = some il
                ∧ (il.r_curly_prev_end = none ∨ il.r_curly_prev_end = some none)))
    ∧ (∀ (impl_def : ImplSyn) (buf : String),
        (find_impl_block_start impl_def buf).1 = none ↔
          (impl_def.assoc_item_list = none
            ∨ ∃ il, impl_def.assoc_item_list = some il ∧ il.l_curly_end = none)) := by
  refine ⟨?_, ?_, ?_⟩
  · intro adt tt code
    cases adt with
    | mk nm gpl attrs wc tre par sem =>
      cases nm <;> simp [generate_impl_text_inner]
  · intro impl_def buf
    cases impl_def with
    | mk sema ail =>
      cases ail with
      | none => simp [find_impl_block_end]
      | some il =>
        cases il with
        | mk items lc rc =>
          cases rc with
          | none => simp [find_impl_block_end]
          | some o => cases o <;> simp [find_impl_block_end]
  · intro impl_def buf
    cases impl_def with
    | mk sema ail =>
      cases ail with
      | none => simp [find_impl_block_start]
      | some il =>
        cases il with
        | mk items lc rc =>
          cases lc <;> simp [find_impl_block_start]

/-- C9 counterexample: on a nameless ADT `generate_impl_text_inner` hits
`adt.name().unwrap()` and panics instead of returning an absence marker. -/
theorem generate_impl_text_panics_without_name :
    generate_impl_text_inner adt_nameless none "code" = PanicOr.panic := rfl
